import Mathlib

/-!
Verification of the duel participation-event engine of the chewie-bot
repository. The definitions below are a shallow embedding of
`DuelEvent` (src/server/src/commands/commandScripts/index.ts) together
with the duel-related chat commands `AcceptCommand` and `WeaponCommand`.
Collaborators that are declared but whose code is not part of the
sources (the `ParticipationEvent` base class, `EventService`,
`UserService.changeUserPoints`/`changeUsersPoints`, the duel chat
command wiring) are modelled from the specification and carry a
doc comment saying so.
-/

/-- A chat user as the engine sees it: a username and the point balance
snapshot carried on the user object (`IUser` in the source). -/
structure IUser where
  username : String
  points : Int
deriving DecidableEq, Repr

/-- Modelled from the spec: the duel weapon enum
`{None, Rock, Paper, Scissors}` (`DuelWeapon`, referenced by the source
but defined outside it; the spec's data-model section names exactly
these four values). -/
inductive DuelWeapon where
  | None
  | Rock
  | Paper
  | Scissors
deriving DecidableEq, Repr

/-- The string value of a weapon, as interpolated into whisper texts. -/
def DuelWeapon.asString : DuelWeapon → String
  | .None => "None"
  | .Rock => "Rock"
  | .Paper => "Paper"
  | .Scissors => "Scissors"

/-- Modelled from the spec: the three lifecycle phases of a
participation event (`EventState`, referenced by the source but defined
outside it; the spec's data-model section names exactly these three). -/
inductive EventState where
  | Open
  | BoardingCompleted
  | Ended
deriving DecidableEq, Repr

/-- Modelled from the spec: `DuelEventParticipant` (defined outside the
sources): a user, the escrowed wager, the accepted flag, and the chosen
weapon, initially `None`.  The constructor used in the source takes
`(user, wager, accepted)`. -/
structure DuelEventParticipant where
  user : IUser
  wager : Nat
  accepted : Bool
  weapon : DuelWeapon
deriving DecidableEq, Repr

/-- The one-shot delayed callbacks the engine can schedule. -/
inductive TimerKind where
  | participation
  | weaponChoice
  | cooldown
deriving DecidableEq, Repr

/-- The observable effects threaded through every operation: the user
point balances held by the `UserService` collaborator, the chat
messages sent, the whispers sent, and the delayed callbacks scheduled. -/
structure Effects where
  balances : String → Int
  messages : List String
  whispers : List String
  timers : List TimerKind

/-- Modelled from the spec: `UserService.changeUserPoints(user, delta)`
adds `delta` to the stored balance of that user (atomic increment on
the balance keyed by username). -/
def changeUserPoints (b : String → Int) (u : IUser) (d : Int) : String → Int :=
  fun n => if n = u.username then b n + d else b n

/-- Modelled from the spec: `UserService.changeUsersPoints(users, delta)`
applies `changeUserPoints` to each listed user in turn. -/
def changeUsersPoints (b : String → Int) (us : List IUser) (d : Int) : String → Int :=
  us.foldl (fun bb uu => changeUserPoints bb uu d) b

/-- Send one chat message (the duel chat command wires the event's
`sendMessage` to the chat transport; modelled from the spec's
user-visible-behaviour section, the same wiring `BankheistCommand`
performs in the sources). -/
def Effects.send (fx : Effects) (m : String) : Effects :=
  { fx with messages := fx.messages ++ [m] }

/-- Send one whisper through the chat transport. -/
def Effects.whisper (fx : Effects) (m : String) : Effects :=
  { fx with whispers := fx.whispers ++ [m] }

/-- Record the scheduling of a one-shot delayed callback. -/
def Effects.schedule (fx : Effects) (t : TimerKind) : Effects :=
  { fx with timers := fx.timers ++ [t] }

/-- Replace the balance store (the result of a point mutation). -/
def Effects.withBalances (fx : Effects) (b : String → Int) : Effects :=
  { fx with balances := b }

/-- `Math.round(w * 0.1)` of the source, for a non-negative integer
wager under exact arithmetic: round half up of `w / 10`. -/
def jsRound10 (w : Nat) : Nat :=
  (w + 5) / 10

/-- The duel event: lifecycle state, arrival-ordered participants
(index 0 is the initiator), and the wager. -/
structure DuelEvent where
  state : EventState
  participants : List DuelEventParticipant
  wager : Nat
deriving DecidableEq, Repr

/-- The `DuelEvent` constructor: pushes the initiator (accepted); if a
target user is named, pushes the target (not accepted) and moves to
`BoardingCompleted`.  The initial state `Open` comes from the
`ParticipationEvent` base class, modelled from the spec. -/
def newDuelEvent (initiatingUser : IUser) (targetUser : Option IUser) (wager : Nat) :
    DuelEvent :=
  match targetUser with
  | some t =>
    { state := EventState.BoardingCompleted
      participants :=
        [⟨initiatingUser, wager, true, DuelWeapon.None⟩, ⟨t, wager, false, DuelWeapon.None⟩]
      wager := wager }
  | none =>
    { state := EventState.Open
      participants := [⟨initiatingUser, wager, true, DuelWeapon.None⟩]
      wager := wager }

/-- `String.prototype.toLowerCase()` as the source uses it for
username comparison: lower-case every character. -/
def lowerStr (s : String) : String := ⟨s.data.map Char.toLower⟩

/-- First participant whose username matches case-insensitively
(the loop inside `DuelEvent.getParticipant`). -/
def findParticipant (uname : String) :
    List DuelEventParticipant → Option DuelEventParticipant
  | [] => none
  | p :: ps =>
    if lowerStr p.user.username = uname then some p else findParticipant uname ps

/-- `DuelEvent.getParticipant`: first participant with the same
username, compared in lower case. -/
def DuelEvent.getParticipant (e : DuelEvent) (user : IUser) :
    Option DuelEventParticipant :=
  findParticipant (lowerStr user.username) e.participants

/-- `DuelEvent.hasParticipant`. -/
def DuelEvent.hasParticipant (e : DuelEvent) (user : IUser) : Bool :=
  (e.getParticipant user).isSome

/-- `DuelEvent.canAccept`: rejects with a message when the accepting
user's points are below the wager. -/
def DuelEvent.canAccept (e : DuelEvent) (user : IUser) : Bool × String :=
  if user.points < (e.wager : Int) then
    (false, "@" ++ user.username ++ " does not have enough chews!")
  else
    (true, "")

/-- Mark the first participant matching the (lower-cased) username as
accepted (`participant.accepted = true` in `DuelEvent.accept`). -/
def markAccepted (uname : String) :
    List DuelEventParticipant → List DuelEventParticipant
  | [] => []
  | p :: ps =>
    if lowerStr p.user.username = uname then
      { p with accepted := true } :: ps
    else
      p :: markAccepted uname ps

/-- `DuelEvent.accept`: on success moves to `BoardingCompleted`, adds
or marks the accepting participant, escrows the wager from every
participant through `changeUsersPoints`, and schedules the
weapon-choice delay (`waitForWeaponChoice` begins with
`await this.delay(60 * 1000)`).  On failure returns the rejection pair
unchanged. -/
def DuelEvent.accept (e : DuelEvent) (user : IUser) (fx : Effects) :
    DuelEvent × Effects × Bool × String :=
  let r := e.canAccept user
  if r.1 then
    let e1 : DuelEvent := { e with state := EventState.BoardingCompleted }
    let e2 : DuelEvent :=
      match e1.getParticipant user with
      | some _ => { e1 with participants := markAccepted (lowerStr user.username) e1.participants }
      | none =>
        { e1 with participants :=
            e1.participants ++ [⟨user, e1.wager, true, DuelWeapon.None⟩] }
    let fx1 : Effects :=
      fx.withBalances
        (changeUsersPoints fx.balances (e2.participants.map (fun p => p.user))
          (-(e2.wager : Int)))
    (e2, fx1.schedule TimerKind.weaponChoice, true, "")
  else
    (e, fx, false, r.2)

/-- Set the weapon of the first participant matching the username
(the mutation inside `DuelEvent.setWeapon`). -/
def setWeaponList (uname : String) (w : DuelWeapon) :
    List DuelEventParticipant → List DuelEventParticipant
  | [] => []
  | p :: ps =>
    if lowerStr p.user.username = uname then
      { p with weapon := w } :: ps
    else
      p :: setWeaponList uname w ps

/-- `DuelEvent.setWeapon`: succeeds (returning `true`) whenever the
user is a participant, overwriting any previously chosen weapon. -/
def DuelEvent.setWeapon (e : DuelEvent) (user : IUser) (w : DuelWeapon) :
    DuelEvent × Bool :=
  match e.getParticipant user with
  | some _ =>
    ({ e with participants := setWeaponList (lowerStr user.username) w e.participants }, true)
  | none => (e, false)

/-- `DuelEvent.returnChews`: refund the full wager to every
participant. -/
def DuelEvent.returnChews (e : DuelEvent) (b : String → Int) : String → Int :=
  changeUsersPoints b (e.participants.map (fun p => p.user)) (e.wager : Int)

/-- `DuelEvent.participationPeriodEnded`: cancels (message and
`stopEvent`) when the state is still `Open`, or `BoardingCompleted`
with a target that never accepted; otherwise does nothing.
`EventService.stopEvent` is modelled from the spec: it removes the
event from the registry and leaves its state `Ended` (the spec's
concurrency section: after cancellation the state is no longer
`Open`/`BoardingCompleted`, so a later timer callback is a no-op).
`none` marks the unreachable shapes on which the source would fault
(indexing a missing participant). -/
def DuelEvent.participationPeriodEnded (e : DuelEvent) (fx : Effects) :
    Option (DuelEvent × Effects) :=
  match e.state, e.participants with
  | EventState.Open, p0 :: _ =>
    some ({ e with state := EventState.Ended },
      fx.send ("Oh Sir " ++ p0.user.username ++
        ", it appears your challenge has not been answered. The duel has been called off."))
  | EventState.Open, [] => none
  | EventState.BoardingCompleted, p0 :: p1 :: _ =>
    if p1.accepted then
      some (e, fx)
    else
      some ({ e with state := EventState.Ended },
        fx.send ("Oh Sir " ++ p0.user.username ++ ", it appears " ++ p1.user.username ++
          " did not answer your challenge. The duel has been called off."))
  | EventState.BoardingCompleted, _ => none
  | EventState.Ended, _ => some (e, fx)

/-- `DuelEvent.startDuel`: settlement.  Marks the event ended and
schedules the cooldown (`EventService.stopEventStartCooldown`,
modelled from the spec: the event stays registered, blocking new
starts, with state `Ended`, and the cooldown delay is scheduled).  A
tie returns `wager - Math.round(wager * 0.1)` to every participant
after a flavour message and a penalty message; otherwise the winner
(first participant exactly when its weapon beats the second's under
paper/rock, rock/scissors, scissors/paper) receives `wager * 2`,
followed by a flavour message and a win message. -/
def DuelEvent.startDuel (e : DuelEvent) (fx : Effects) : Option (DuelEvent × Effects) :=
  match e.participants with
  | p0 :: p1 :: _ =>
    let e1 : DuelEvent := { e with state := EventState.Ended }
    let fxc := fx.schedule TimerKind.cooldown
    if p0.weapon = p1.weapon then
      let fx1 :=
        match p0.weapon with
        | DuelWeapon.Rock =>
          fxc.send ("Sir " ++ p0.user.username ++ " and Sir " ++ p1.user.username ++
            " both threw Rock! They collide with such force they fuse to form nuclear isotope cozmium-322!")
        | DuelWeapon.Paper =>
          fxc.send ("Sir " ++ p0.user.username ++ " and Sir " ++ p1.user.username ++
            " both threw Paper! They combine into a paper airplane and fly away!")
        | DuelWeapon.Scissors =>
          fxc.send ("Sir " ++ p0.user.username ++ " and Sir " ++ p1.user.username ++
            " both threw Scissors! They entangle and the audience is not quite sure if they're witnessing something indecent monkaS")
        | DuelWeapon.None => fxc
      let chewsLost := jsRound10 e.wager
      let fx2 := fx1.send ("Both participants lose " ++ toString chewsLost ++ " chews chewieWUT")
      let fx3 : Effects :=
        fx2.withBalances
          (changeUsersPoints fx2.balances (e.participants.map (fun p => p.user))
            ((e.wager : Int) - (chewsLost : Int)))
      some (e1, fx3)
    else
      let winnerFirst : Bool :=
        (p0.weapon = DuelWeapon.Paper ∧ p1.weapon = DuelWeapon.Rock) ∨
        (p0.weapon = DuelWeapon.Rock ∧ p1.weapon = DuelWeapon.Scissors) ∨
        (p0.weapon = DuelWeapon.Scissors ∧ p1.weapon = DuelWeapon.Paper)
      let winner := if winnerFirst then p0 else p1
      let loser := if winnerFirst then p1 else p0
      let fx1 : Effects :=
        fxc.withBalances (changeUserPoints fxc.balances winner.user ((e.wager : Int) * 2))
      let fx2 :=
        match winner.weapon with
        | DuelWeapon.Rock =>
          fx1.send ("Sir " ++ winner.user.username ++ " threw Rock and absolutely smashed Sir " ++
            loser.user.username ++ "'s Scissors!")
        | DuelWeapon.Paper =>
          fx1.send ("Sir " ++ winner.user.username ++ "'s Paper covered Sir " ++
            loser.user.username ++ "'s Rock. Hello darkness my old friend FeelsBadMan")
        | DuelWeapon.Scissors =>
          fx1.send ("Sir " ++ winner.user.username ++ "'s Scissors cuts Sir " ++
            loser.user.username ++ "'s Paper into subatomic particles!")
        | DuelWeapon.None => fx1
      let fx3 := fx2.send ("Sir " ++ winner.user.username ++ " wins " ++ toString e.wager ++ " chews!")
      some (e1, fx3)
  | _ => none

/-- The body of `waitForWeaponChoice` after the one-minute delay: if
the first participant never chose, cancel (`stopEvent`, message,
refund); else if the second never chose, cancel likewise; else settle
through `startDuel`. -/
def DuelEvent.weaponChoiceTimeout (e : DuelEvent) (fx : Effects) :
    Option (DuelEvent × Effects) :=
  match e.participants with
  | p0 :: p1 :: _ =>
    if p0.weapon = DuelWeapon.None then
      let fx1 := fx.send ("How rude, Sir " ++ p0.user.username ++
        ", calling a duel and then not participating! The duel has been called off FeelsBadMan")
      some ({ e with state := EventState.Ended },
        { fx1 with balances := e.returnChews fx1.balances })
    else if p1.weapon = DuelWeapon.None then
      let fx1 := fx.send ("Despite accepting the duel, it appears Sir " ++ p1.user.username ++
        " has run away! The duel has been called off FeelsBadMan")
      some ({ e with state := EventState.Ended },
        { fx1 with balances := e.returnChews fx1.balances })
    else
      e.startDuel fx
  | _ => none

/-- `DuelEvent.onCooldownComplete`: announces renewed availability. -/
def DuelEvent.onCooldownComplete (fx : Effects) : Effects :=
  fx.send "The duelgrounds are ready for the next battle! Settle your grievances today with !duel <target> <wager>"

/-- A running participation event as the registry holds it: a duel, or
an event of another concrete kind (the `instanceof DuelEvent` test in
`checkForOngoingEvent` only distinguishes these two cases). -/
inductive RunningEvent where
  | duel (d : DuelEvent)
  | other

/-- `DuelEvent.checkForOngoingEvent`: vetoes the start whenever the
running event is a `DuelEvent`, whatever its state, with one of two
messages (cooldown clean-up message when it is `Ended`). -/
def DuelEvent.checkForOngoingEvent (_self : DuelEvent) (runningEvent : RunningEvent)
    (user : IUser) : Bool × String :=
  match runningEvent with
  | RunningEvent.duel d =>
    if d.state = EventState.Ended then
      (false, "A duel has just finished @" ++ user.username ++
        ". Please wait while we clean up the battleground.")
    else
      (false, "A duel is underway @" ++ user.username ++
        ". Please wait for the current duel to finish.")
  | RunningEvent.other => (true, "")

/-- `DuelEvent.start`: announces the challenge (named target) or the
open duel.  `none` marks the unreachable no-participant shape. -/
def DuelEvent.start (e : DuelEvent) (fx : Effects) : Option Effects :=
  match e.participants with
  | p0 :: p1 :: _ =>
    some (fx.send ("Sir " ++ p0.user.username ++ " has challenged Sir " ++ p1.user.username ++
      " to a duel for " ++ toString e.wager ++ " chews! Sir " ++ p1.user.username ++
      ", to accept this duel, type !accept"))
  | [p0] =>
    some (fx.send ("Sir " ++ p0.user.username ++
      " has issued an open duel with the wager of " ++ toString e.wager ++
      " chews! Is there anyone who would !accept this challenge?"))
  | [] => none

/-- The first veto produced by checking the candidate duel against
every running event (the loop inside `EventService.startEvent`). -/
def firstVeto (d : DuelEvent) (user : IUser) : List RunningEvent → Option String
  | [] => none
  | re :: res =>
    let r := d.checkForOngoingEvent re user
    if r.1 then firstVeto d user res else some r.2

/-- Modelled from the spec: `EventService.startEvent` (not among the
sources) returns a rejection string when `checkForOngoingEvent`,
checked against every currently active event, vetoes the start;
otherwise it registers the event, calls its `start()` and schedules the
participation timer. -/
def startEvent (registry : List RunningEvent) (d : DuelEvent) (user : IUser)
    (fx : Effects) : Option ((List RunningEvent × Effects) ⊕ String) :=
  match firstVeto d user registry with
  | some msg => some (Sum.inr msg)
  | none =>
    match d.start fx with
    | some fx1 => some (Sum.inl (registry ++ [RunningEvent.duel d], fx1.schedule TimerKind.participation))
    | none => none

/-- `AcceptCommand.acceptDuel`: relays the duel's own rejection
message, or announces the weapon-selection phase on success.  `none`
marks the unreachable shape with fewer than two participants after a
successful acceptance. -/
def acceptDuel (duel : DuelEvent) (user : IUser) (fx : Effects) :
    Option (DuelEvent × Effects) :=
  let r := duel.accept user fx
  if r.2.2.1 then
    match r.1.participants with
    | p0 :: p1 :: _ =>
      some (r.1, r.2.1.send ("It's time to D-D-D-D-D-D-D-D-Duel! Sir " ++ p0.user.username ++
        ", Sir " ++ p1.user.username ++
        ", please whisper me your weapon of choice using !rock, !paper, or !scissors"))
    | _ => none
  else
    some (r.1, r.2.1.send r.2.2.2)

/-- The loop inside `WeaponCommand.chooseWeapon`: the first running
duel in `BoardingCompleted` whose `setWeapon` succeeds is updated and a
confirming whisper is sent; later duels are left untouched. -/
def chooseWeaponLoop (user : IUser) (w : DuelWeapon) (fx : Effects) :
    List DuelEvent → List DuelEvent × Effects
  | [] => ([], fx)
  | d :: ds =>
    if d.state = EventState.BoardingCompleted then
      let r := d.setWeapon user w
      if r.2 then
        (r.1 :: ds, fx.whisper ("Your current weapon is: " ++ w.asString))
      else
        let rest := chooseWeaponLoop user w fx ds
        (d :: rest.1, rest.2)
    else
      let rest := chooseWeaponLoop user w fx ds
      (d :: rest.1, rest.2)

/-- `WeaponCommand.chooseWeapon`: a weapon choice posted in a public
channel (non-empty channel string) is ignored silently; a whispered
choice is routed to the first accepting duel in the selection window. -/
def chooseWeapon (channel : String) (user : IUser) (w : DuelWeapon)
    (duels : List DuelEvent) (fx : Effects) : List DuelEvent × Effects :=
  if channel ≠ "" then
    (duels, fx)
  else
    chooseWeaponLoop user w fx duels

/-- The spec's winning relation, stated in its own words: rock beats
scissors, scissors beats paper, paper beats rock.  Used to compare the
settlement code's winner selection against the specified relation. -/
def beats (a b : DuelWeapon) : Bool :=
  match a, b with
  | DuelWeapon.Rock, DuelWeapon.Scissors => true
  | DuelWeapon.Scissors, DuelWeapon.Paper => true
  | DuelWeapon.Paper, DuelWeapon.Rock => true
  | _, _ => false

/-- A complete duel round driven by the chat commands: an open duel by
`initiator` for `wager`, accepted by `acceptor`, both weapons set
through `setWeapon`, then the weapon-choice timer fires.  `none` when
the acceptance is rejected (or on unreachable participant shapes). -/
def duelFullRun (initiator acceptor : IUser) (wager : Nat) (w0 w1 : DuelWeapon)
    (fx : Effects) : Option (DuelEvent × Effects) :=
  let e0 := newDuelEvent initiator none wager
  let r := e0.accept acceptor fx
  if r.2.2.1 then
    let e1 := (r.1.setWeapon initiator w0).1
    let e2 := (e1.setWeapon acceptor w1).1
    e2.weaponChoiceTimeout r.2.1
  else
    none

/-! Helper lemmas. -/

theorem setWeaponList_twice (un : String) (w1 w2 : DuelWeapon)
    (ps : List DuelEventParticipant) :
    setWeaponList un w2 (setWeaponList un w1 ps) = setWeaponList un w2 ps := by
  induction ps with
  | nil => rfl
  | cons p ps ih =>
    by_cases hc : lowerStr p.user.username = un
    · simp [setWeaponList, hc]
    · simp [setWeaponList, hc, ih]

theorem findParticipant_setWeaponList (un un' : String) (w : DuelWeapon)
    (ps : List DuelEventParticipant) :
    (findParticipant un (setWeaponList un' w ps)).isSome
      = (findParticipant un ps).isSome := by
  induction ps with
  | nil => rfl
  | cons p ps ih =>
    simp only [setWeaponList]
    split
    · simp only [findParticipant]
      split <;> simp
    · simp only [findParticipant]
      split <;> simp [ih]

/-- A fixed initial effects store for concrete runs: every balance 0,
nothing sent, nothing scheduled. -/
def fx0 : Effects := ⟨fun _ => 0, [], [], []⟩

/-- Claim C6: an acceptance by a user whose points are strictly below
the wager returns `(false, message)` with a message containing
"does not have enough chews", and mutates nothing: the event (hence
its participants and state) and the effects (hence every balance) are
returned unchanged. -/
theorem duel_C6_insufficient_funds (e : DuelEvent) (u : IUser) (fx : Effects)
    (h : u.points < (e.wager : Int)) :
    e.accept u fx = (e, fx, false, "@" ++ u.username ++ " does not have enough chews!") ∧
    ∃ pre post, (e.accept u fx).2.2.2 = pre ++ ("does not have enough chews" ++ post) := by
  have hacc : e.accept u fx
      = (e, fx, false, "@" ++ u.username ++ " does not have enough chews!") := by
    simp [DuelEvent.accept, DuelEvent.canAccept, h]
  refine ⟨hacc, "@" ++ u.username ++ " ", "!", ?_⟩
  rw [hacc]
  simp [String.append_assoc]

/-- Claim C6 witness: a user with 10 points cannot accept a wager of
20; the event and effects are untouched and the message names the
shortfall. -/
theorem duel_C6_witness :
    (newDuelEvent ⟨"Alice", 100⟩ none 20).accept ⟨"Bob", 10⟩ fx0
      = (newDuelEvent ⟨"Alice", 100⟩ none 20, fx0, false,
          "@" ++ "Bob" ++ " does not have enough chews!") ∧
    ∃ pre post, ((newDuelEvent ⟨"Alice", 100⟩ none 20).accept ⟨"Bob", 10⟩ fx0).2.2.2
      = pre ++ ("does not have enough chews" ++ post) :=
  duel_C6_insufficient_funds (newDuelEvent ⟨"Alice", 100⟩ none 20) ⟨"Bob", 10⟩ fx0 (by decide)

/-- Claim C7: for a participant of the duel, `setWeapon` succeeds every
time, and two consecutive calls for the same user leave exactly the
state of the second call alone: last write wins, so settlement sees
only the final value. -/
theorem duel_C7_weapon_overwrite (e : DuelEvent) (u : IUser) (w1 w2 : DuelWeapon)
    (h : e.hasParticipant u = true) :
    (e.setWeapon u w1).2 = true ∧
    ((e.setWeapon u w1).1.setWeapon u w2).2 = true ∧
    ((e.setWeapon u w1).1.setWeapon u w2).1 = (e.setWeapon u w2).1 := by
  obtain ⟨q, hg⟩ : ∃ q, e.getParticipant u = some q := by
    cases hgg : e.getParticipant u with
    | none => rw [DuelEvent.hasParticipant, hgg] at h; simp at h
    | some q => exact ⟨q, rfl⟩
  have h1 : e.setWeapon u w1
      = ({ e with participants := setWeaponList (lowerStr u.username) w1 e.participants }, true) := by
    rw [DuelEvent.setWeapon, hg]
  obtain ⟨q2, hg2⟩ : ∃ q2,
      DuelEvent.getParticipant
        { e with participants := setWeaponList (lowerStr u.username) w1 e.participants } u
        = some q2 := by
    cases hgg : DuelEvent.getParticipant
        { e with participants := setWeaponList (lowerStr u.username) w1 e.participants } u with
    | none =>
      exfalso
      have hiso := findParticipant_setWeaponList (lowerStr u.username) (lowerStr u.username)
        w1 e.participants
      rw [DuelEvent.getParticipant] at hgg
      rw [hgg] at hiso
      rw [DuelEvent.getParticipant] at hg
      rw [hg] at hiso
      simp at hiso
    | some q2 => exact ⟨q2, rfl⟩
  have h2 : DuelEvent.setWeapon
      { e with participants := setWeaponList (lowerStr u.username) w1 e.participants } u w2
      = ({ e with participants := setWeaponList (lowerStr u.username) w2 (setWeaponList (lowerStr u.username) w1 e.participants) }, true) := by
    rw [DuelEvent.setWeapon, hg2]
  have h3 : e.setWeapon u w2
      = ({ e with participants := setWeaponList (lowerStr u.username) w2 e.participants }, true) := by
    rw [DuelEvent.setWeapon, hg]
  rw [h1]
  rw [h2, h3]
  simp [setWeaponList_twice]

/-- Claim C7 witness: Bob, a participant of a boarding-completed duel,
switches from Rock to Paper; both calls succeed and the composite
equals the single second call. -/
theorem duel_C7_witness :
    ((newDuelEvent ⟨"Alice", 100⟩ (some ⟨"Bob", 100⟩) 20).setWeapon ⟨"Bob", 100⟩ DuelWeapon.Rock).2 = true ∧
    (((newDuelEvent ⟨"Alice", 100⟩ (some ⟨"Bob", 100⟩) 20).setWeapon ⟨"Bob", 100⟩ DuelWeapon.Rock).1.setWeapon
        ⟨"Bob", 100⟩ DuelWeapon.Paper).2 = true ∧
    (((newDuelEvent ⟨"Alice", 100⟩ (some ⟨"Bob", 100⟩) 20).setWeapon ⟨"Bob", 100⟩ DuelWeapon.Rock).1.setWeapon
        ⟨"Bob", 100⟩ DuelWeapon.Paper).1
      = ((newDuelEvent ⟨"Alice", 100⟩ (some ⟨"Bob", 100⟩) 20).setWeapon ⟨"Bob", 100⟩ DuelWeapon.Paper).1 :=
  duel_C7_weapon_overwrite (newDuelEvent ⟨"Alice", 100⟩ (some ⟨"Bob", 100⟩) 20) ⟨"Bob", 100⟩
    DuelWeapon.Rock DuelWeapon.Paper (by decide)

/-- Claim C10: `accept` validates only the accepting user's points;
the initiator's balance is never re-checked, yet on success the escrow
is debited from every participant, the initiator included — whatever
the initiator's current balance (the hypothesis set mentions no bound
on it). -/
theorem duel_C10_initiator_escrow_unchecked (init acc : IUser) (w : Nat) (fx : Effects)
    (hpts : ¬ (acc.points < (w : Int)))
    (hlow : lowerStr init.username ≠ lowerStr acc.username) :
    ((newDuelEvent init none w).accept acc fx).2.2.1 = true ∧
    ((newDuelEvent init none w).accept acc fx).2.1.balances init.username
      = fx.balances init.username - (w : Int) := by
  have hne : init.username ≠ acc.username := fun hh => hlow (by rw [hh])
  refine ⟨?_, ?_⟩
  · simp [newDuelEvent, DuelEvent.accept, DuelEvent.canAccept, hpts,
      DuelEvent.getParticipant, findParticipant, hlow]
  · simp [newDuelEvent, DuelEvent.accept, DuelEvent.canAccept, hpts,
      DuelEvent.getParticipant, findParticipant, hlow, changeUsersPoints,
      changeUserPoints, Effects.withBalances, Effects.schedule, hne, Ne.symm hne]
    omega

/-- Claim C10 witness: Alice opened a duel for 20 but holds 0 points;
Bob (30 points) accepts; the acceptance succeeds and Alice is debited
the full wager, to -20. -/
theorem duel_C10_witness :
    ((newDuelEvent ⟨"Alice", 0⟩ none 20).accept ⟨"Bob", 30⟩ fx0).2.2.1 = true ∧
    ((newDuelEvent ⟨"Alice", 0⟩ none 20).accept ⟨"Bob", 30⟩ fx0).2.1.balances "Alice"
      = fx0.balances "Alice" - ((20 : Nat) : Int) :=
  duel_C10_initiator_escrow_unchecked ⟨"Alice", 0⟩ ⟨"Bob", 30⟩ 20 fx0 (by decide) (by decide)

theorem startDuel_state_ended (e e' : DuelEvent) (fx fx' : Effects)
    (h : e.startDuel fx = some (e', fx')) : e'.state = EventState.Ended := by
  rw [DuelEvent.startDuel] at h
  split at h
  · split at h <;>
      (simp only [Option.some.injEq, Prod.mk.injEq] at h; rw [← h.1])
  · simp at h

theorem weaponChoiceTimeout_state_ended (e e' : DuelEvent) (fx fx' : Effects)
    (h : e.weaponChoiceTimeout fx = some (e', fx')) : e'.state = EventState.Ended := by
  rw [DuelEvent.weaponChoiceTimeout] at h
  split at h
  · split at h
    · simp only [Option.some.injEq, Prod.mk.injEq] at h; rw [← h.1]
    · split at h
      · simp only [Option.some.injEq, Prod.mk.injEq] at h; rw [← h.1]
      · exact startDuel_state_ended e e' fx fx' h
  · simp at h

/-- Claim C2: no double settlement.  (1) once the state is `Ended`,
`participationPeriodEnded` returns the event and the effects unchanged:
no balance mutation, no message, no refund; (2) every completed
weapon-choice path (no-show cancellation or settlement) leaves the
state `Ended`; (3) `participationPeriodEnded` itself either does
nothing or cancels leaving the state `Ended` — so any second firing
after a terminal path is a no-op. -/
theorem duel_C2_no_double_settlement :
    (∀ (e : DuelEvent) (fx : Effects), e.state = EventState.Ended →
      e.participationPeriodEnded fx = some (e, fx)) ∧
    (∀ (e e' : DuelEvent) (fx fx' : Effects),
      e.weaponChoiceTimeout fx = some (e', fx') → e'.state = EventState.Ended) ∧
    (∀ (e e' : DuelEvent) (fx fx' : Effects),
      e.participationPeriodEnded fx = some (e', fx') →
        (e' = e ∧ fx' = fx) ∨ e'.state = EventState.Ended) := by
  refine ⟨?_, ?_, ?_⟩
  · intro e fx h
    rw [DuelEvent.participationPeriodEnded, h]
  · intro e e' fx fx' h
    exact weaponChoiceTimeout_state_ended e e' fx fx' h
  · intro e e' fx fx' h
    rw [DuelEvent.participationPeriodEnded] at h
    split at h
    · right; simp only [Option.some.injEq, Prod.mk.injEq] at h; rw [← h.1]
    · simp at h
    · split at h
      · left; simp only [Option.some.injEq, Prod.mk.injEq] at h; exact ⟨h.1.symm, h.2.symm⟩
      · right; simp only [Option.some.injEq, Prod.mk.injEq] at h; rw [← h.1]
    · simp at h
    · left; simp only [Option.some.injEq, Prod.mk.injEq] at h; exact ⟨h.1.symm, h.2.symm⟩

/-- A settled duel used by several concrete runs: Alice threw Rock,
Bob threw Scissors, wager 30, boarding completed. -/
def demoDuel : DuelEvent :=
  { state := EventState.BoardingCompleted
    participants :=
      [⟨⟨"Alice", 100⟩, 30, true, DuelWeapon.Rock⟩, ⟨⟨"Bob", 100⟩, 30, true, DuelWeapon.Scissors⟩]
    wager := 30 }

/-- Claim C2 witness: a duel already `Ended` is returned untouched by
`participationPeriodEnded`, and a concrete weapon-choice completion
(the demo duel settling Rock against Scissors) ends in state `Ended`. -/
theorem duel_C2_witness :
    ({ demoDuel with state := EventState.Ended } : DuelEvent).participationPeriodEnded fx0
      = some ({ demoDuel with state := EventState.Ended }, fx0) ∧
    ({ demoDuel with state := EventState.Ended } : DuelEvent).state = EventState.Ended :=
  ⟨duel_C2_no_double_settlement.1 { demoDuel with state := EventState.Ended } fx0 rfl,
   duel_C2_no_double_settlement.2.1 demoDuel { demoDuel with state := EventState.Ended } fx0 _ rfl⟩

/-- The clean-up-phase rejection text of `checkForOngoingEvent`. -/
def duelFinishedMsg (u : IUser) : String :=
  "A duel has just finished @" ++ u.username ++ ". Please wait while we clean up the battleground."

/-- The duel-underway rejection text of `checkForOngoingEvent`. -/
def duelUnderwayMsg (u : IUser) : String :=
  "A duel is underway @" ++ u.username ++ ". Please wait for the current duel to finish."

/-- `startEvent` returned a policy rejection carrying one of the two
duel veto messages. -/
def isPolicyRejection (r : Option ((List RunningEvent × Effects) ⊕ String)) (u : IUser) : Prop :=
  match r with
  | some (Sum.inr msg) => msg = duelFinishedMsg u ∨ msg = duelUnderwayMsg u
  | _ => False

/-- `startEvent` succeeded (registered the event). -/
def startSucceeded (r : Option ((List RunningEvent × Effects) ⊕ String)) : Prop :=
  match r with
  | some (Sum.inl _) => True
  | _ => False

theorem firstVeto_of_mem (dNew d : DuelEvent) (u : IUser) (reg : List RunningEvent)
    (hmem : RunningEvent.duel d ∈ reg) :
    ∃ msg, firstVeto dNew u reg = some msg ∧
      (msg = duelFinishedMsg u ∨ msg = duelUnderwayMsg u) := by
  induction reg with
  | nil => cases hmem
  | cons re res ih =>
    cases re with
    | duel d0 =>
      by_cases hs : d0.state = EventState.Ended
      · exact ⟨duelFinishedMsg u,
          by simp [firstVeto, DuelEvent.checkForOngoingEvent, hs, duelFinishedMsg], Or.inl rfl⟩
      · exact ⟨duelUnderwayMsg u,
          by simp [firstVeto, DuelEvent.checkForOngoingEvent, hs, duelUnderwayMsg], Or.inr rfl⟩
    | other =>
      have hres : RunningEvent.duel d ∈ res := by
        cases hmem with
        | tail _ hm => exact hm
      obtain ⟨msg, hv, hm⟩ := ih hres
      exact ⟨msg, by rw [firstVeto]; simpa [DuelEvent.checkForOngoingEvent] using hv, hm⟩

theorem firstVeto_none (dNew : DuelEvent) (u : IUser) (reg : List RunningEvent)
    (h : ∀ d, RunningEvent.duel d ∉ reg) : firstVeto dNew u reg = none := by
  induction reg with
  | nil => rfl
  | cons re res ih =>
    cases re with
    | duel d0 => exact absurd (List.Mem.head _) (h d0)
    | other =>
      rw [firstVeto]
      simpa [DuelEvent.checkForOngoingEvent] using
        ih (fun d hd => h d (List.Mem.tail _ hd))

/-- Claim C5: at most one active duel.  (1) `checkForOngoingEvent`
vetoes the start against every running `DuelEvent`, whatever its state
(`Open`, `BoardingCompleted` or `Ended`-but-cooling-down), with one of
its two human-readable messages; (2) hence `startEvent` rejects a new
duel with such a message whenever any duel is still registered; (3)
once no duel remains registered (full deregistration after cooldown),
`startEvent` succeeds. -/
theorem duel_C5_at_most_one_active :
    (∀ (self d : DuelEvent) (u : IUser),
      (self.checkForOngoingEvent (RunningEvent.duel d) u).1 = false ∧
      ((self.checkForOngoingEvent (RunningEvent.duel d) u).2 = duelFinishedMsg u ∨
       (self.checkForOngoingEvent (RunningEvent.duel d) u).2 = duelUnderwayMsg u)) ∧
    (∀ (reg : List RunningEvent) (d dNew : DuelEvent) (u : IUser) (fx : Effects),
      RunningEvent.duel d ∈ reg →
      isPolicyRejection (startEvent reg dNew u fx) u) ∧
    (∀ (reg : List RunningEvent) (dNew : DuelEvent) (u : IUser) (fx : Effects),
      (∀ d, RunningEvent.duel d ∉ reg) → dNew.participants ≠ [] →
      startSucceeded (startEvent reg dNew u fx)) := by
  refine ⟨?_, ?_, ?_⟩
  · intro self d u
    by_cases hs : d.state = EventState.Ended <;>
      simp [DuelEvent.checkForOngoingEvent, hs, duelFinishedMsg, duelUnderwayMsg]
  · intro reg d dNew u fx hmem
    obtain ⟨msg, hv, hm⟩ := firstVeto_of_mem dNew d u reg hmem
    rw [startEvent, hv]
    exact hm
  · intro reg dNew u fx hno hne
    have hv := firstVeto_none dNew u reg hno
    have hstart : ∃ fx1, dNew.start fx = some fx1 := by
      rw [DuelEvent.start]
      split
      · exact ⟨_, rfl⟩
      · exact ⟨_, rfl⟩
      · next hp => exact absurd hp hne
    obtain ⟨fx1, hs⟩ := hstart
    rw [startEvent, hv, hs]
    exact trivial

/-- Claim C5 witness: with the demo duel still registered, starting a
fresh duel is rejected with a policy message; with an empty registry
the same start succeeds. -/
theorem duel_C5_witness :
    isPolicyRejection
      (startEvent [RunningEvent.duel demoDuel] (newDuelEvent ⟨"Carol", 50⟩ none 10) ⟨"Carol", 50⟩ fx0)
      ⟨"Carol", 50⟩ ∧
    startSucceeded (startEvent [] (newDuelEvent ⟨"Carol", 50⟩ none 10) ⟨"Carol", 50⟩ fx0) :=
  ⟨duel_C5_at_most_one_active.2.1 [RunningEvent.duel demoDuel] demoDuel
      (newDuelEvent ⟨"Carol", 50⟩ none 10) ⟨"Carol", 50⟩ fx0 (List.Mem.head _),
   duel_C5_at_most_one_active.2.2 [] (newDuelEvent ⟨"Carol", 50⟩ none 10) ⟨"Carol", 50⟩ fx0
      (fun d hd => nomatch hd) (by simp [newDuelEvent])⟩

/-- Claim C3: tie payout.  When both participants chose the same
(real) weapon, settlement changes each participant's balance by
`+(wager - round(wager*0.10))` — on top of the earlier `-wager`
escrow, a net loss of exactly `round(wager*0.10)` each, which is not
redistributed to either participant. -/
theorem duel_C3_tie_payout (e : DuelEvent) (q0 q1 : DuelEventParticipant) (fx : Effects)
    (hp : e.participants = [q0, q1])
    (hw : q0.weapon = q1.weapon) (hn : q0.weapon ≠ DuelWeapon.None)
    (hname : q0.user.username ≠ q1.user.username) :
    (e.weaponChoiceTimeout fx).map (fun r => r.2.balances q0.user.username)
        = some (fx.balances q0.user.username + ((e.wager : Int) - (jsRound10 e.wager : Int))) ∧
    (e.weaponChoiceTimeout fx).map (fun r => r.2.balances q1.user.username)
        = some (fx.balances q1.user.username + ((e.wager : Int) - (jsRound10 e.wager : Int))) := by
  obtain ⟨u0, wg0, a0, wp0⟩ := q0
  obtain ⟨u1, wg1, a1, wp1⟩ := q1
  simp only at hw hn hname ⊢
  subst hw
  cases wp0 with
  | None => exact absurd rfl hn
  | Rock =>
    constructor <;>
      simp [DuelEvent.weaponChoiceTimeout, DuelEvent.startDuel, hp, Effects.send,
        Effects.schedule, Effects.withBalances, DuelEvent.returnChews, changeUsersPoints,
        changeUserPoints, hname, Ne.symm hname]
  | Paper =>
    constructor <;>
      simp [DuelEvent.weaponChoiceTimeout, DuelEvent.startDuel, hp, Effects.send,
        Effects.schedule, Effects.withBalances, DuelEvent.returnChews, changeUsersPoints,
        changeUserPoints, hname, Ne.symm hname]
  | Scissors =>
    constructor <;>
      simp [DuelEvent.weaponChoiceTimeout, DuelEvent.startDuel, hp, Effects.send,
        Effects.schedule, Effects.withBalances, DuelEvent.returnChews, changeUsersPoints,
        changeUserPoints, hname, Ne.symm hname]

/-- The tie demo duel: both picked Paper, wager 50. -/
def tieDuel : DuelEvent :=
  { state := EventState.BoardingCompleted
    participants :=
      [⟨⟨"Alice", 100⟩, 50, true, DuelWeapon.Paper⟩, ⟨⟨"Bob", 100⟩, 50, true, DuelWeapon.Paper⟩]
    wager := 50 }

/-- Claim C3 witness: both picked Paper with wager 50 — each is
credited `50 - round(50*0.10) = 45` back at settlement. -/
theorem duel_C3_witness :
    (tieDuel.weaponChoiceTimeout fx0).map (fun r => r.2.balances "Alice")
        = some (fx0.balances "Alice" + (((50 : Nat) : Int) - ((jsRound10 50 : Nat) : Int))) ∧
    (tieDuel.weaponChoiceTimeout fx0).map (fun r => r.2.balances "Bob")
        = some (fx0.balances "Bob" + (((50 : Nat) : Int) - ((jsRound10 50 : Nat) : Int))) :=
  duel_C3_tie_payout tieDuel ⟨⟨"Alice", 100⟩, 50, true, DuelWeapon.Paper⟩
    ⟨⟨"Bob", 100⟩, 50, true, DuelWeapon.Paper⟩ fx0 rfl rfl (by decide) (by decide)

/-- Claim C4: win/lose payout.  When the two participants chose
different real weapons, the one whose weapon beats the other's (rock
beats scissors, scissors beats paper, paper beats rock) is credited
exactly `wager * 2` at settlement and the loser is credited nothing. -/
theorem duel_C4_win_payout (e : DuelEvent) (q0 q1 : DuelEventParticipant) (fx : Effects)
    (hp : e.participants = [q0, q1])
    (h0 : q0.weapon ≠ DuelWeapon.None) (h1 : q1.weapon ≠ DuelWeapon.None)
    (hname : q0.user.username ≠ q1.user.username) :
    (beats q0.weapon q1.weapon = true →
      (e.weaponChoiceTimeout fx).map (fun r => r.2.balances q0.user.username)
          = some (fx.balances q0.user.username + (e.wager : Int) * 2) ∧
      (e.weaponChoiceTimeout fx).map (fun r => r.2.balances q1.user.username)
          = some (fx.balances q1.user.username)) ∧
    (beats q1.weapon q0.weapon = true →
      (e.weaponChoiceTimeout fx).map (fun r => r.2.balances q1.user.username)
          = some (fx.balances q1.user.username + (e.wager : Int) * 2) ∧
      (e.weaponChoiceTimeout fx).map (fun r => r.2.balances q0.user.username)
          = some (fx.balances q0.user.username)) := by
  obtain ⟨u0, wg0, a0, wp0⟩ := q0
  obtain ⟨u1, wg1, a1, wp1⟩ := q1
  simp only at h0 h1 hname ⊢
  cases wp0 <;> cases wp1 <;>
    first
    | exact absurd rfl h0
    | exact absurd rfl h1
    | (constructor <;> intro hb <;>
        first
        | exact absurd hb (by decide)
        | (constructor <;>
            simp [DuelEvent.weaponChoiceTimeout, DuelEvent.startDuel, hp, Effects.send,
              Effects.schedule, Effects.withBalances, changeUserPoints, hname, Ne.symm hname]))

/-- Claim C4 witness: Rock (Alice) against Scissors (Bob) at wager 30 —
Alice is credited 60 at settlement, Bob nothing. -/
theorem duel_C4_witness :
    (demoDuel.weaponChoiceTimeout fx0).map (fun r => r.2.balances "Alice")
        = some (fx0.balances "Alice" + ((30 : Nat) : Int) * 2) ∧
    (demoDuel.weaponChoiceTimeout fx0).map (fun r => r.2.balances "Bob")
        = some (fx0.balances "Bob") :=
  (duel_C4_win_payout demoDuel ⟨⟨"Alice", 100⟩, 30, true, DuelWeapon.Rock⟩
    ⟨⟨"Bob", 100⟩, 30, true, DuelWeapon.Scissors⟩ fx0 rfl (by decide) (by decide) (by decide)).1
    (by decide)

/-- Claim C1: escrow conservation.  For a full duel round — open duel,
acceptance (which escrows `-wager` from both participants), weapon
choices, timer-driven resolution — the sum of the two participants'
balances afterwards equals the sum before acceptance, minus exactly
`2 * round(wager*0.10)` when the round is a tie on a real weapon, and
minus zero in every other outcome (win/lose payout or no-show refund).
No point amount vanishes or is fabricated. -/
theorem duel_C1_escrow_conservation (init acc : IUser) (w : Nat) (w0 w1 : DuelWeapon)
    (fx : Effects)
    (hpts : ¬ (acc.points < (w : Int)))
    (hlow : lowerStr init.username ≠ lowerStr acc.username) :
    (duelFullRun init acc w w0 w1 fx).map
        (fun r => r.2.balances init.username + r.2.balances acc.username)
      = some (fx.balances init.username + fx.balances acc.username -
          (if w0 = w1 ∧ w0 ≠ DuelWeapon.None then 2 * ((jsRound10 w : Nat) : Int) else 0)) := by
  have hne : init.username ≠ acc.username := fun hh => hlow (by rw [hh])
  cases w0 <;> cases w1 <;>
    simp [duelFullRun, newDuelEvent, DuelEvent.accept, DuelEvent.canAccept, hpts,
      DuelEvent.getParticipant, findParticipant, hlow, markAccepted, DuelEvent.setWeapon,
      setWeaponList, DuelEvent.weaponChoiceTimeout, DuelEvent.startDuel,
      DuelEvent.returnChews, changeUsersPoints, changeUserPoints, Effects.send,
      Effects.schedule, Effects.withBalances, hne, Ne.symm hne] <;>
    omega

/-- Claim C1 witness: Alice opens for 50, Bob accepts, both throw
Paper: the sum of their balances drops by exactly `2 * round(50*0.10)
= 10`. -/
theorem duel_C1_witness :
    (duelFullRun ⟨"Alice", 100⟩ ⟨"Bob", 100⟩ 50 DuelWeapon.Paper DuelWeapon.Paper fx0).map
        (fun r => r.2.balances "Alice" + r.2.balances "Bob")
      = some (fx0.balances "Alice" + fx0.balances "Bob" -
          (if DuelWeapon.Paper = DuelWeapon.Paper ∧ DuelWeapon.Paper ≠ DuelWeapon.None
           then 2 * ((jsRound10 50 : Nat) : Int) else 0)) :=
  duel_C1_escrow_conservation ⟨"Alice", 100⟩ ⟨"Bob", 100⟩ 50 DuelWeapon.Paper DuelWeapon.Paper
    fx0 (by decide) (by decide)

theorem start_timers (d : DuelEvent) (fx fx1 : Effects) (h : d.start fx = some fx1) :
    fx1.timers = fx.timers := by
  rw [DuelEvent.start] at h
  split at h
  · simp only [Option.some.injEq] at h; rw [← h]; rfl
  · simp only [Option.some.injEq] at h; rw [← h]; rfl
  · simp at h

theorem startDuel_timers (e e' : DuelEvent) (fx fx' : Effects)
    (h : e.startDuel fx = some (e', fx')) :
    fx'.timers = fx.timers ++ [TimerKind.cooldown] := by
  rw [DuelEvent.startDuel] at h
  split at h
  · split at h <;>
      (simp only [Option.some.injEq, Prod.mk.injEq] at h; rw [← h.2]; split <;> rfl)
  · simp at h

/-- The open-duel announcement for Alice at wager 20, as `start`
assembles it. -/
def dOpenMsg : String :=
  "Sir " ++ "Alice" ++ " has issued an open duel with the wager of " ++ toString (20 : Nat) ++
    " chews! Is there anyone who would !accept this challenge?"

/-- Alice's open duel at wager 20. -/
def dOpen : DuelEvent := newDuelEvent ⟨"Alice", 100⟩ none 20

/-- Claim C8 counterexample: the claim says the participation and
cooldown callbacks are the only delayed callbacks and that none is
scheduled at acceptance; but `accept` schedules the weapon-choice
delay (`waitForWeaponChoice` awaits `delay(60 * 1000)`), and that
callback drives a transition: the accepted duel (state
`BoardingCompleted`) is moved to `Ended` when it fires. -/
theorem duel_C8_counterexample :
    ((dOpen.accept ⟨"Bob", 100⟩ fx0).2.1.timers = [TimerKind.weaponChoice]) ∧
    ((dOpen.accept ⟨"Bob", 100⟩ fx0).1.state = EventState.BoardingCompleted) ∧
    (((dOpen.accept ⟨"Bob", 100⟩ fx0).1.weaponChoiceTimeout
        (dOpen.accept ⟨"Bob", 100⟩ fx0).2.1).map (fun r => r.1.state)
      = some EventState.Ended) := by
  refine ⟨by decide, by decide, ?_⟩
  rfl

/-- Claim C8 as amended: the duel is driven by three one-shot delayed
callbacks, not two — the participation timer scheduled at event start,
the weapon-selection timer scheduled at acceptance, and the cooldown
timer scheduled at settlement; no operation schedules any other timer
(rejected acceptances and `participationPeriodEnded` schedule none). -/
theorem duel_C8_timer_semantics :
    (∀ (e : DuelEvent) (u : IUser) (fx : Effects),
      (e.accept u fx).2.2.1 = true →
      (e.accept u fx).2.1.timers = fx.timers ++ [TimerKind.weaponChoice]) ∧
    (∀ (e : DuelEvent) (u : IUser) (fx : Effects),
      (e.accept u fx).2.2.1 = false →
      (e.accept u fx).2.1.timers = fx.timers) ∧
    (∀ (reg : List RunningEvent) (d : DuelEvent) (u : IUser) (fx : Effects)
      (res : List RunningEvent × Effects),
      startEvent reg d u fx = some (Sum.inl res) →
      res.2.timers = fx.timers ++ [TimerKind.participation]) ∧
    (∀ (e e' : DuelEvent) (fx fx' : Effects),
      e.weaponChoiceTimeout fx = some (e', fx') →
      fx'.timers = fx.timers ++ [TimerKind.cooldown] ∨ fx'.timers = fx.timers) ∧
    (∀ (e e' : DuelEvent) (fx fx' : Effects),
      e.participationPeriodEnded fx = some (e', fx') → fx'.timers = fx.timers) := by
  refine ⟨?_, ?_, ?_, ?_, ?_⟩
  · intro e u fx h
    by_cases hc : u.points < (e.wager : Int)
    · simp [DuelEvent.accept, DuelEvent.canAccept, hc] at h
    · simp [DuelEvent.accept, DuelEvent.canAccept, hc, Effects.schedule, Effects.withBalances]
  · intro e u fx h
    by_cases hc : u.points < (e.wager : Int)
    · simp [DuelEvent.accept, DuelEvent.canAccept, hc]
    · simp [DuelEvent.accept, DuelEvent.canAccept, hc] at h
  · intro reg d u fx res h
    rw [startEvent] at h
    split at h
    · simp at h
    · split at h
      · rename_i fx1 hs
        simp only [Option.some.injEq, Sum.inl.injEq] at h
        rw [← h]
        simp [Effects.schedule, start_timers d fx fx1 hs]
      · simp at h
  · intro e e' fx fx' h
    rw [DuelEvent.weaponChoiceTimeout] at h
    split at h
    · split at h
      · right
        simp only [Option.some.injEq, Prod.mk.injEq] at h
        rw [← h.2]; rfl
      · split at h
        · right
          simp only [Option.some.injEq, Prod.mk.injEq] at h
          rw [← h.2]; rfl
        · exact Or.inl (startDuel_timers e e' fx fx' h)
    · simp at h
  · intro e e' fx fx' h
    rw [DuelEvent.participationPeriodEnded] at h
    split at h
    · simp only [Option.some.injEq, Prod.mk.injEq] at h; rw [← h.2]; rfl
    · simp at h
    · split at h <;> (simp only [Option.some.injEq, Prod.mk.injEq] at h; rw [← h.2]) <;>
        try rfl
    · simp at h
    · simp only [Option.some.injEq, Prod.mk.injEq] at h; rw [← h.2]

/-- The effects produced by settling the demo duel (Rock against
Scissors, wager 30) from the empty effects store. -/
def demoSettleFx : Effects :=
  (((fx0.schedule TimerKind.cooldown).withBalances
      (changeUserPoints (fx0.schedule TimerKind.cooldown).balances ⟨"Alice", 100⟩
        (((30 : Nat) : Int) * 2))).send
    ("Sir " ++ "Alice" ++ " threw Rock and absolutely smashed Sir " ++ "Bob" ++ "'s Scissors!")).send
    ("Sir " ++ "Alice" ++ " wins " ++ toString (30 : Nat) ++ " chews!")

/-- Claim C8 witness: each timer-scheduling fact at a concrete input —
Bob's successful acceptance schedules the weapon-choice delay, a
rejected acceptance schedules nothing, a successful `startEvent`
schedules the participation timer, Rock-against-Scissors settlement
schedules the cooldown, and an unanswered-challenge cancellation
schedules nothing. -/
theorem duel_C8_witness :
    ((dOpen.accept ⟨"Bob", 100⟩ fx0).2.1.timers = fx0.timers ++ [TimerKind.weaponChoice]) ∧
    ((dOpen.accept ⟨"Bob", 10⟩ fx0).2.1.timers = fx0.timers) ∧
    (((fx0.send dOpenMsg).schedule TimerKind.participation).timers
        = fx0.timers ++ [TimerKind.participation]) ∧
    (demoSettleFx.timers = fx0.timers ++ [TimerKind.cooldown] ∨
      demoSettleFx.timers = fx0.timers) ∧
    ((fx0.send ("Oh Sir " ++ "Alice" ++
        ", it appears your challenge has not been answered. The duel has been called off.")).timers
      = fx0.timers) :=
  ⟨duel_C8_timer_semantics.1 dOpen ⟨"Bob", 100⟩ fx0 (by decide),
   duel_C8_timer_semantics.2.1 dOpen ⟨"Bob", 10⟩ fx0 (by decide),
   duel_C8_timer_semantics.2.2.1 [] dOpen ⟨"Alice", 100⟩ fx0
     ([RunningEvent.duel dOpen], (fx0.send dOpenMsg).schedule TimerKind.participation) rfl,
   duel_C8_timer_semantics.2.2.2.1 demoDuel { demoDuel with state := EventState.Ended }
     fx0 demoSettleFx rfl,
   duel_C8_timer_semantics.2.2.2.2 dOpen { dOpen with state := EventState.Ended }
     fx0 (fx0.send ("Oh Sir " ++ "Alice" ++
       ", it appears your challenge has not been answered. The duel has been called off.")) rfl⟩

theorem accept_messages (e : DuelEvent) (u : IUser) (fx : Effects) :
    (e.accept u fx).2.1.messages = fx.messages := by
  by_cases hc : u.points < (e.wager : Int) <;>
    simp [DuelEvent.accept, DuelEvent.canAccept, hc, Effects.schedule, Effects.withBalances]

theorem chooseWeaponLoop_effects (u : IUser) (w : DuelWeapon) (fx : Effects)
    (ds : List DuelEvent) :
    (chooseWeaponLoop u w fx ds).2 = fx ∨
      ∃ m, (chooseWeaponLoop u w fx ds).2 = fx.whisper m := by
  induction ds with
  | nil => exact Or.inl rfl
  | cons d ds ih =>
    rw [chooseWeaponLoop]
    by_cases hst : d.state = EventState.BoardingCompleted
    · by_cases hr : (d.setWeapon u w).2 = true
      · right
        refine ⟨"Your current weapon is: " ++ w.asString, ?_⟩
        simp [hst, hr]
      · simp only [hst, if_true, eq_self_iff_true]
        rw [if_neg hr]
        exact ih
    · rw [if_neg hst]
      exact ih

/-- Claim C9 counterexample: the claim says every state transition
produces exactly one chat message; but settling the demo duel (Rock
against Scissors) — one transition, `BoardingCompleted` to `Ended` —
sends two: the flavour message and the payout message. -/
theorem duel_C9_counterexample :
    (demoDuel.weaponChoiceTimeout fx0).map (fun r => r.2.messages.length) = some 2 ∧
    (2 : Nat) ≠ 1 :=
  ⟨rfl, by decide⟩

/-- Claim C9 as amended: every rejection and every transition of the
duel produces a fixed number of chat messages — one for each
cancellation (unanswered challenge, unaccepted challenge, no-show) and
one for each acceptance outcome (the relayed rejection or the
weapon-phase announcement), but exactly two for settlement (the
flavour message plus the payout message); a successful weapon
selection produces one whisper and no chat message; and silence occurs
only for out-of-context noise, such as weapon choices posted in the
public channel, which change nothing at all. -/
theorem duel_C9_message_counts :
    (∀ (e e' : DuelEvent) (fx fx' : Effects),
      e.participationPeriodEnded fx = some (e', fx') →
        (fx'.messages.length = fx.messages.length + 1 ∧ e'.state = EventState.Ended ∧
          e.state ≠ EventState.Ended) ∨ (e' = e ∧ fx' = fx)) ∧
    (∀ (duel d' : DuelEvent) (u : IUser) (fx fx' : Effects),
      acceptDuel duel u fx = some (d', fx') →
      fx'.messages.length = fx.messages.length + 1) ∧
    (∀ (e : DuelEvent) (q0 q1 : DuelEventParticipant) (fx : Effects),
      e.participants = [q0, q1] →
      ((q0.weapon = DuelWeapon.None ∨ q1.weapon = DuelWeapon.None) →
        (e.weaponChoiceTimeout fx).map (fun r => r.2.messages.length)
          = some (fx.messages.length + 1)) ∧
      (q0.weapon ≠ DuelWeapon.None → q1.weapon ≠ DuelWeapon.None →
        (e.weaponChoiceTimeout fx).map (fun r => r.2.messages.length)
          = some (fx.messages.length + 2))) ∧
    (∀ (channel : String) (u : IUser) (w : DuelWeapon) (duels : List DuelEvent) (fx : Effects),
      channel ≠ "" → chooseWeapon channel u w duels fx = (duels, fx)) ∧
    (∀ (u : IUser) (w : DuelWeapon) (duels : List DuelEvent) (fx : Effects),
      (chooseWeapon "" u w duels fx).2.messages = fx.messages ∧
      ((chooseWeapon "" u w duels fx).2.whispers = fx.whispers ∨
        ∃ m, (chooseWeapon "" u w duels fx).2.whispers = fx.whispers ++ [m])) := by
  refine ⟨?_, ?_, ?_, ?_, ?_⟩
  · intro e e' fx fx' h
    rw [DuelEvent.participationPeriodEnded] at h
    split at h
    · left
      simp only [Option.some.injEq, Prod.mk.injEq] at h
      rename_i hst _
      refine ⟨by rw [← h.2]; simp [Effects.send], by rw [← h.1], by rw [hst]; decide⟩
    · simp at h
    · split at h
      · right
        simp only [Option.some.injEq, Prod.mk.injEq] at h
        exact ⟨h.1.symm, h.2.symm⟩
      · left
        simp only [Option.some.injEq, Prod.mk.injEq] at h
        rename_i hst _ _
        refine ⟨by rw [← h.2]; simp [Effects.send], by rw [← h.1], by rw [hst]; decide⟩
    · simp at h
    · right
      simp only [Option.some.injEq, Prod.mk.injEq] at h
      exact ⟨h.1.symm, h.2.symm⟩
  · intro duel d' u fx fx' h
    rw [acceptDuel] at h
    split at h
    · split at h
      · simp only [Option.some.injEq, Prod.mk.injEq] at h
        rw [← h.2]
        simp [Effects.send, accept_messages]
      · simp at h
    · simp only [Option.some.injEq, Prod.mk.injEq] at h
      rw [← h.2]
      simp [Effects.send, accept_messages]
  · intro e q0 q1 fx hp
    obtain ⟨u0, wg0, a0, wp0⟩ := q0
    obtain ⟨u1, wg1, a1, wp1⟩ := q1
    simp only
    cases wp0 <;> cases wp1 <;>
      refine ⟨fun hOr => ?_, fun hA hB => ?_⟩ <;>
      first
      | exact absurd rfl hA
      | exact absurd rfl hB
      | ((rcases hOr with h | h <;> simp at h) <;> done)
      | simp [DuelEvent.weaponChoiceTimeout, DuelEvent.startDuel, hp, Effects.send,
          Effects.schedule, Effects.withBalances, DuelEvent.returnChews]
  · intro channel u w duels fx h
    rw [chooseWeapon, if_pos h]
  · intro u w duels fx
    rw [chooseWeapon]
    rw [if_neg (by simp)]
    rcases chooseWeaponLoop_effects u w fx duels with h | ⟨m, h⟩
    · rw [h]; exact ⟨rfl, Or.inl rfl⟩
    · rw [h]; exact ⟨rfl, Or.inr ⟨m, rfl⟩⟩

/-- Claim C9 witness: the amended message counts at concrete inputs —
a second `participationPeriodEnded` on an ended duel changes nothing,
a rejected acceptance relays exactly one message, the Paper-Paper tie
settles with exactly two messages, a public-channel weapon post is
silently ignored, and a whispered weapon choice sends no chat
message and at most one whisper. -/
theorem duel_C9_witness :
    ((fx0.messages.length = fx0.messages.length + 1 ∧
        ({ demoDuel with state := EventState.Ended } : DuelEvent).state = EventState.Ended ∧
        ({ demoDuel with state := EventState.Ended } : DuelEvent).state ≠ EventState.Ended) ∨
      (({ demoDuel with state := EventState.Ended } : DuelEvent)
          = { demoDuel with state := EventState.Ended } ∧ fx0 = fx0)) ∧
    ((fx0.send ("@" ++ "Bob" ++ " does not have enough chews!")).messages.length
        = fx0.messages.length + 1) ∧
    ((tieDuel.weaponChoiceTimeout fx0).map (fun r => r.2.messages.length)
        = some (fx0.messages.length + 2)) ∧
    (chooseWeapon "general" ⟨"Bob", 100⟩ DuelWeapon.Rock [] fx0 = ([], fx0)) ∧
    ((chooseWeapon "" ⟨"Bob", 100⟩ DuelWeapon.Rock [tieDuel] fx0).2.messages = fx0.messages ∧
      ((chooseWeapon "" ⟨"Bob", 100⟩ DuelWeapon.Rock [tieDuel] fx0).2.whispers = fx0.whispers ∨
        ∃ m, (chooseWeapon "" ⟨"Bob", 100⟩ DuelWeapon.Rock [tieDuel] fx0).2.whispers
          = fx0.whispers ++ [m])) :=
  ⟨duel_C9_message_counts.1 { demoDuel with state := EventState.Ended }
      { demoDuel with state := EventState.Ended } fx0 fx0 rfl,
   duel_C9_message_counts.2.1 dOpen dOpen ⟨"Bob", 10⟩ fx0
      (fx0.send ("@" ++ "Bob" ++ " does not have enough chews!")) rfl,
   (duel_C9_message_counts.2.2.1 tieDuel ⟨⟨"Alice", 100⟩, 50, true, DuelWeapon.Paper⟩
      ⟨⟨"Bob", 100⟩, 50, true, DuelWeapon.Paper⟩ fx0 rfl).2 (by decide) (by decide),
   duel_C9_message_counts.2.2.2.1 "general" ⟨"Bob", 100⟩ DuelWeapon.Rock [] fx0 (by decide),
   duel_C9_message_counts.2.2.2.2 ⟨"Bob", 100⟩ DuelWeapon.Rock [tieDuel] fx0⟩
